import Mathlib

/-!
Shallow embedding of `pyethereum/apiserver.py`: the block resolver
(`block`), the transaction reconciler (`get_transactions`), the CORS
middleware (`CorsMiddleware.__call__`) and the JSON response serializer
(`json.dumps(s, sort_keys=True)`), together with theorems settling the
frozen claims about them.

Bytes are modelled as `Nat` values (< 256 where it matters); hex strings
are Lean `String`s; the external chain-manager collaborator is a record of
query functions (`ChainState`).
-/

/-! ## Hex encoding and decoding (Python `s.encode('hex')` / `s.decode('hex')`) -/

/-- Lowercase hex digit character for a nibble, as Python's hex encoder emits.
Values ≥ 15 all map to `'f'`; only inputs < 16 occur for real bytes. -/
def hexDigit : Nat → Char
  | 0 => '0' | 1 => '1' | 2 => '2' | 3 => '3' | 4 => '4'
  | 5 => '5' | 6 => '6' | 7 => '7' | 8 => '8' | 9 => '9'
  | 10 => 'a' | 11 => 'b' | 12 => 'c' | 13 => 'd' | 14 => 'e'
  | _ => 'f'

/-- Character list of the lowercase hex encoding of a byte list. -/
def hexChars : List Nat → List Char
  | [] => []
  | b :: bs => hexDigit (b / 16) :: hexDigit (b % 16) :: hexChars bs

/-- Python `bytes.encode('hex')`: lowercase hex string of a byte list. -/
def hexEncode (bs : List Nat) : String := ⟨hexChars bs⟩

/-- Numeric value of a hex digit character; accepts both cases, as
Python's `str.decode('hex')` (binascii) does. -/
def hexDigitVal (c : Char) : Option Nat :=
  if 48 ≤ c.toNat ∧ c.toNat ≤ 57 then some (c.toNat - 48)
  else if 97 ≤ c.toNat ∧ c.toNat ≤ 102 then some (c.toNat - 87)
  else if 65 ≤ c.toNat ∧ c.toNat ≤ 70 then some (c.toNat - 55)
  else none

/-- Decode a character list as hex byte pairs; `none` on odd length or a
non-hex character, as Python's `str.decode('hex')` raises `TypeError`. -/
def hexPairs : List Char → Option (List Nat)
  | [] => some []
  | [_] => none
  | c1 :: c2 :: cs =>
    match hexDigitVal c1, hexDigitVal c2, hexPairs cs with
    | some h, some l, some bs => some ((h * 16 + l) :: bs)
    | _, _, _ => none

/-- Python `arg.decode('hex')`: `none` models the `TypeError` path. -/
def hexDecode (s : String) : Option (List Nat) := hexPairs s.data

/-! ## Data model: blocks, transactions, the chain-manager collaborator -/

/-- A block as this core consumes it: content hash (raw bytes) and height. -/
structure Block where
  hash : List Nat
  number : Nat
deriving DecidableEq

/-- A transaction: content hash (raw bytes) plus an opaque payload standing
for the remaining serialized fields. -/
structure Tx where
  hash : List Nat
  payload : Nat
deriving DecidableEq

/-- The chain-manager collaborator interface exactly as `apiserver.py`
calls it: `head`, `index.get_block_by_number`, `get`,
`index.get_transaction`, `miner.get_transactions()`, `miner.block`,
`in_main_branch`. A `none` result models a `KeyError`. -/
structure ChainState where
  head : Block
  get_block_by_number : Nat → Option (List Nat)
  get : List Nat → Option Block
  get_transaction : List Nat → Option (Tx × Block)
  miner_transactions : List Tx
  miner_block : Block
  in_main_branch : Block → Bool

/-- Outcome of a handler: a body, or `bottle.abort(code, msg)`. -/
inductive HttpOutcome (α : Type) where
  | ok (body : α)
  | abort (code : Nat) (msg : String)
deriving DecidableEq

/-! ## Block resolver (`block(arg)` in apiserver.py) -/

/-- Python `str.isdigit()` on a nonempty ASCII token. -/
def pyIsDigit (s : String) : Bool := !s.isEmpty && s.data.all (fun c => c.isDigit)

/-- Python `int(arg)` for an all-digit token. -/
def parseNatDigits (s : String) : Nat :=
  s.data.foldl (fun n c => n * 10 + (c.toNat - 48)) 0

/-- The `GET /blocks/<arg>` handler `block(arg)`: `head` literal, all-digit
height, or hex hash; every `KeyError` (including the re-raised hex decode
failure) becomes `abort(404, 'No block  %s' % arg)`. -/
def resolveBlock (st : ChainState) (arg : String) : HttpOutcome (List Block) :=
  if arg == "head" then .ok [st.head]
  else if pyIsDigit arg then
    match st.get_block_by_number (parseNatDigits arg) with
    | none => .abort 404 ("No block  " ++ arg)
    | some h =>
      match st.get h with
      | none => .abort 404 ("No block  " ++ arg)
      | some b => .ok [b]
  else
    match hexDecode arg with
    | none => .abort 404 ("No block  " ++ arg)
    | some h =>
      match st.get h with
      | none => .abort 404 ("No block  " ++ arg)
      | some b => .ok [b]

/-! ## Transaction reconciler (`get_transactions(arg)` in apiserver.py) -/

/-- The enriched transaction response: the transaction's own fields plus
`block` (hex hash string) and `confirmations`. -/
structure TxResult where
  tx : Tx
  block : String
  confirmations : Int
deriving DecidableEq

/-- The response-shaping tail of `get_transactions`: sets
`tx['block'] = blk.hex_hash()` and computes confirmations from branch
membership and head height. -/
def respond (st : ChainState) (tx : Tx) (blk : Block) : TxResult :=
  { tx := tx
    block := hexEncode blk.hash
    confirmations :=
      if st.in_main_branch blk then (st.head.number : Int) - (blk.number : Int) else 0 }

/-- The `GET /transactions/<arg>` handler: decode hex (failure →
`abort(500, 'No hex  %s')`), consult the committed index, fall back to the
miner's pending pool matched by `tx.hex_hash() == arg`, else
`abort(404, 'No Transaction  %s')`. -/
def get_transactions (st : ChainState) (arg : String) : HttpOutcome TxResult :=
  match hexDecode arg with
  | none => .abort 500 ("No hex  " ++ arg)
  | some tx_hash =>
    match st.get_transaction tx_hash with
    | some (tx, blk) => .ok (respond st tx blk)
    | none =>
      match st.miner_transactions.filter (fun t => hexEncode t.hash == arg) with
      | [] => .abort 404 ("No Transaction  " ++ arg)
      | t :: _ => .ok (respond st t st.miner_block)

/-- Modelled from the spec: the pending pool's designated working block
(`chain_manager.miner.block`, whose implementation is outside src/) is not
yet mined, hence not on the canonical branch — the spec defines pending
transactions as "accepted but not yet included in a mined block" and their
confirmations as 0. -/
def minerBlockPending (st : ChainState) : Prop :=
  st.in_main_branch st.miner_block = false

instance (st : ChainState) : Decidable (minerBlockPending st) :=
  inferInstanceAs (Decidable (st.in_main_branch st.miner_block = false))

/-! ## CORS middleware (`CorsMiddleware` in apiserver.py) -/

/-- The fixed header set `CorsMiddleware.HEADERS`. -/
def corsHeaders : List (String × String) :=
  [("Access-Control-Allow-Origin", "*"),
   ("Access-Control-Allow-Methods", "GET, POST, OPTIONS"),
   ("Access-Control-Allow-Headers",
    "Origin, Accept, Content-Type, X-Requested-With, X-CSRF-Token")]

/-- The WSGI environ as the middleware consults it: request method and path. -/
structure Environ where
  request_method : String
  path : String
deriving DecidableEq

/-- A completed WSGI exchange: the status and headers passed to
`start_response` and the returned body. -/
structure WsgiResponse where
  status : String
  headers : List (String × String)
  body : String
deriving DecidableEq

/-- `CorsMiddleware.__call__`: OPTIONS short-circuits with 200, the CORS
headers plus `Content-Length: 0` and an empty body; any other method runs
the inner app and appends (`headers.extend`) the CORS headers to whatever
headers the inner app passed to `start_response`. -/
def cors_call (inner : Environ → WsgiResponse) (env : Environ) : WsgiResponse :=
  if env.request_method == "OPTIONS" then
    { status := "200 OK"
      headers := corsHeaders ++ [("Content-Length", "0")]
      body := "" }
  else
    let r := inner env
    { status := r.status, headers := r.headers ++ corsHeaders, body := r.body }

/-! ## Response serialization (`json.dumps(s, sort_keys=True)`) -/

/-- A JSON value; an object carries its key/value pairs in field-insertion
order, as a Python dict does. -/
inductive JVal where
  | jstr (s : String)
  | jnum (n : Int)
  | jbool (b : Bool)
  | jnull
  | jarr (xs : List JVal)
  | jobj (kvs : List (String × JVal))

/-- Key-ordering relation used by `sort_keys=True`: compare entries by key
only (a Python dict cannot hold duplicate keys). -/
def entryLe (a b : String × String) : Prop := a.1 ≤ b.1

instance : DecidableRel entryLe := fun a b => inferInstanceAs (Decidable (a.1 ≤ b.1))

instance : IsTotal (String × String) entryLe := ⟨fun a b => le_total a.1 b.1⟩

instance : IsTrans (String × String) entryLe := ⟨fun _ _ _ h1 h2 => le_trans h1 h2⟩

/-- Comma-join with Python's default `', '` item separator. -/
def commaJoin (xs : List String) : String := String.intercalate ", " xs

mutual

/-- `json.dumps` with `sort_keys=True`: objects emit their entries in
ascending key order with Python's default `': '` key separator. -/
def dumps : JVal → String
  | .jstr s => "\"" ++ s ++ "\""
  | .jnum n => toString n
  | .jbool b => cond b "true" "false"
  | .jnull => "null"
  | .jarr xs => "[" ++ commaJoin (dumpsList xs) ++ "]"
  | .jobj kvs =>
    "\x7b" ++
      commaJoin ((List.insertionSort entryLe (dumpsEntries kvs)).map
        (fun e => "\"" ++ e.1 ++ "\": " ++ e.2)) ++ "\x7d"

/-- Serialize each element of an array. -/
def dumpsList : List JVal → List String
  | [] => []
  | v :: vs => dumps v :: dumpsList vs

/-- Serialize the value of each object entry, keeping its key. -/
def dumpsEntries : List (String × JVal) → List (String × String)
  | [] => []
  | (k, v) :: kvs => (k, dumps v) :: dumpsEntries kvs

end

/-! ## Helper lemmas about the hex codec -/

theorem hexDigit_not_upper (n : Nat) : (hexDigit n).isUpper = false := by
  unfold hexDigit
  split <;> decide

theorem hexDigit_ne_h (n : Nat) : hexDigit n ≠ 'h' := by
  unfold hexDigit
  split <;> decide

theorem hexChars_not_upper (bs : List Nat) (c : Char) (hc : c ∈ hexChars bs) :
    c.isUpper = false := by
  induction bs with
  | nil => simp [hexChars] at hc
  | cons b bs ih =>
    simp only [hexChars, List.mem_cons] at hc
    rcases hc with h | h | h
    · subst h; exact hexDigit_not_upper _
    · subst h; exact hexDigit_not_upper _
    · exact ih h

theorem upper_ne_hexEncode (arg : String) (c : Char) (hc : c ∈ arg.data)
    (hup : c.isUpper = true) (bs : List Nat) : hexEncode bs ≠ arg := by
  intro h
  have hdata : arg.data = hexChars bs := (congrArg String.data h).symm
  rw [hdata] at hc
  rw [hexChars_not_upper bs c hc] at hup
  cases hup

theorem hexEncode_ne_head (bs : List Nat) : hexEncode bs ≠ "head" := by
  intro h
  have hdata : hexChars bs = ['h', 'e', 'a', 'd'] := congrArg String.data h
  cases bs with
  | nil => simp [hexChars] at hdata
  | cons b bs =>
    rw [hexChars] at hdata
    exact hexDigit_ne_h (b / 16) (by injection hdata)

theorem hexDigitVal_hexDigit : ∀ n < 16, hexDigitVal (hexDigit n) = some n := by decide

theorem hexPairs_hexChars (bs : List Nat) (hb : ∀ x ∈ bs, x < 256) :
    hexPairs (hexChars bs) = some bs := by
  induction bs with
  | nil => rfl
  | cons b bs ih =>
    have hb0 : b < 256 := hb b (List.mem_cons_self _ _)
    have hhi : b / 16 < 16 := Nat.div_lt_of_lt_mul (by omega)
    have hlo : b % 16 < 16 := Nat.mod_lt _ (by omega)
    rw [hexChars]
    rw [hexPairs]
    rw [hexDigitVal_hexDigit _ hhi, hexDigitVal_hexDigit _ hlo,
      ih (fun x hx => hb x (List.mem_cons_of_mem _ hx))]
    have : b / 16 * 16 + b % 16 = b := by omega
    show some ((b / 16 * 16 + b % 16) :: bs) = some (b :: bs)
    rw [this]

theorem hexDecode_hexEncode (bs : List Nat) (hb : ∀ x ∈ bs, x < 256) :
    hexDecode (hexEncode bs) = some bs := hexPairs_hexChars bs hb

/-! ## Concrete fixture states used by witnesses and counterexamples -/

/-- A committed transaction fixture. -/
def txA : Tx := { hash := [171, 1], payload := 7 }

/-- The block containing `txA`. -/
def blkA : Block := { hash := [18, 52], number := 5 }

/-- The canonical head of the fixture chain. -/
def headA : Block := { hash := [222, 173], number := 9 }

/-- A pending (pool-only) transaction fixture; its hex hash is `"cafe"`. -/
def txP : Tx := { hash := [202, 254], payload := 3 }

/-- The miner's working block in the fixtures. -/
def workA : Block := { hash := [9, 9], number := 10 }

/-- A chain state whose committed index holds `txA` inside `blkA`. -/
def stCommitted : ChainState :=
  { head := headA
    get_block_by_number := fun n => if n = 5 then some [18, 52] else none
    get := fun h =>
      if h = [18, 52] then some blkA else if h = [222, 173] then some headA else none
    get_transaction := fun h => if h = [171, 1] then some (txA, blkA) else none
    miner_transactions := []
    miner_block := workA
    in_main_branch := fun b => b.number ≤ 9 }

/-- `stCommitted` with a stale copy of the committed transaction still
sitting in the pending pool. -/
def stCommittedStale : ChainState :=
  { stCommitted with miner_transactions := [{ hash := [171, 1], payload := 99 }] }

/-- A chain state where `txP` exists only in the pending pool. -/
def stPending : ChainState :=
  { head := headA
    get_block_by_number := fun _ => none
    get := fun _ => none
    get_transaction := fun _ => none
    miner_transactions := [txP]
    miner_block := workA
    in_main_branch := fun b => b.number ≤ 9 }

/-- `stPending` with `txP` additionally committed into `blkA`. -/
def stPendingIdx : ChainState :=
  { stPending with
    get_transaction := fun h => if h = [202, 254] then some (txP, blkA) else none }

/-- An empty chain state. -/
def stEmpty : ChainState :=
  { head := headA
    get_block_by_number := fun _ => none
    get := fun _ => none
    get_transaction := fun _ => none
    miner_transactions := []
    miner_block := workA
    in_main_branch := fun _ => false }

/-! ## Claim theorems: transaction reconciler -/

/-- C1: for a transaction found in the committed index, the reported
confirmations equal head height minus containing-block height when the
containing block is on the canonical branch, and 0 when it is not. -/
theorem committed_tx_confirmations (st : ChainState) (arg : String)
    (txh : List Nat) (tx : Tx) (blk : Block)
    (hdec : hexDecode arg = some txh)
    (hidx : st.get_transaction txh = some (tx, blk)) :
    ∃ r, get_transactions st arg = .ok r ∧
      r.block = hexEncode blk.hash ∧
      (st.in_main_branch blk = true →
        r.confirmations = (st.head.number : Int) - (blk.number : Int)) ∧
      (st.in_main_branch blk = false → r.confirmations = 0) := by
  refine ⟨respond st tx blk, ?_, rfl, ?_, ?_⟩
  · unfold get_transactions
    rw [hdec]; dsimp only; rw [hidx]
  · intro h; simp [respond, h]
  · intro h; simp [respond, h]

/-- C1 witness: the committed fixture transaction sits at height 5 under a
head of height 9 on the canonical branch via `"ab01"`. -/
theorem committed_tx_confirmations_witness :
    hexDecode "ab01" = some [171, 1] ∧
    stCommitted.get_transaction [171, 1] = some (txA, blkA) ∧
    ∃ r, get_transactions stCommitted "ab01" = .ok r ∧
      r.block = hexEncode blkA.hash ∧
      (stCommitted.in_main_branch blkA = true →
        r.confirmations = (stCommitted.head.number : Int) - (blkA.number : Int)) ∧
      (stCommitted.in_main_branch blkA = false → r.confirmations = 0) :=
  ⟨by decide, by decide,
    committed_tx_confirmations stCommitted "ab01" [171, 1] txA blkA (by decide) (by decide)⟩

/-- C2: once a hash is present in the committed index, the response is
built from the committed (transaction, block) pair and is the same for
every content of the pending pool and of the miner's working block — the
pool is never the source of the answer. -/
theorem committed_index_authoritative (st st' : ChainState) (arg : String)
    (txh : List Nat) (tx : Tx) (blk : Block)
    (hidxf : st'.get_transaction = st.get_transaction)
    (hheadf : st'.head = st.head)
    (hbrf : st'.in_main_branch = st.in_main_branch)
    (hdec : hexDecode arg = some txh)
    (hidx : st.get_transaction txh = some (tx, blk)) :
    get_transactions st' arg = .ok (respond st tx blk) := by
  unfold get_transactions
  rw [hdec]; dsimp only; rw [hidxf, hidx]
  unfold respond
  rw [hheadf, hbrf]

/-- C2 witness: a stale copy of the committed transaction sits in the
pool, yet the answer is the committed pair's response. -/
theorem committed_index_authoritative_witness :
    hexDecode "ab01" = some [171, 1] ∧
    stCommitted.get_transaction [171, 1] = some (txA, blkA) ∧
    get_transactions stCommittedStale "ab01" = .ok (respond stCommitted txA blkA) :=
  ⟨by decide, by decide,
    committed_index_authoritative stCommitted stCommittedStale "ab01" [171, 1] txA blkA
      rfl rfl rfl (by decide) (by decide)⟩

/-- C3 counterexample: on the undecodable token `"zz"` the handler aborts
with HTTP 500, not with the claimed BadRequest 400. -/
theorem malformed_tx_hash_not_badrequest :
    get_transactions stEmpty "zz" = .abort 500 ("No hex  zz") ∧
    ¬ ∃ msg, get_transactions stEmpty "zz" = .abort 400 msg := by
  have h1 : get_transactions stEmpty "zz" = .abort 500 ("No hex  zz") := by decide
  refine ⟨h1, ?_⟩
  rintro ⟨msg, h⟩
  rw [h1] at h
  injection h with hc _
  exact absurd hc (by decide)

/-- C3 amended: for every token that is not decodable as hex,
`GET /transactions/<token>` fails with HTTP 500 naming the token. -/
theorem malformed_tx_hash_aborts_500 (st : ChainState) (arg : String)
    (h : hexDecode arg = none) :
    get_transactions st arg = .abort 500 ("No hex  " ++ arg) := by
  unfold get_transactions
  rw [h]

/-- C3 witness: the token `"zz"` is not hex and draws the 500 abort. -/
theorem malformed_tx_hash_aborts_500_witness :
    hexDecode "zz" = none ∧
    get_transactions stEmpty "zz" = .abort 500 ("No hex  " ++ "zz") :=
  ⟨by decide, malformed_tx_hash_aborts_500 stEmpty "zz" (by decide)⟩

/-- C7: a transaction found only in the pending pool is reported with the
miner's working block as its `block` field and 0 confirmations (the
working block being off-canonical is the spec-modelled collaborator
property `minerBlockPending`). -/
theorem pending_tx_zero_confirmations (st : ChainState) (arg : String)
    (txh : List Nat) (tx : Tx) (rest : List Tx)
    (hdec : hexDecode arg = some txh)
    (hmiss : st.get_transaction txh = none)
    (hpool : st.miner_transactions.filter (fun t => hexEncode t.hash == arg) = tx :: rest)
    (hpend : minerBlockPending st) :
    get_transactions st arg =
      .ok { tx := tx, block := hexEncode st.miner_block.hash, confirmations := 0 } := by
  unfold minerBlockPending at hpend
  unfold get_transactions
  rw [hdec]; dsimp only; rw [hmiss]; dsimp only; rw [hpool]
  unfold respond
  rw [hpend]
  simp

/-- C7 witness: the pool-only fixture transaction `"cafe"` answers with
the working block's hash and 0 confirmations. -/
theorem pending_tx_zero_confirmations_witness :
    hexDecode "cafe" = some [202, 254] ∧
    stPending.get_transaction [202, 254] = none ∧
    stPending.miner_transactions.filter (fun t => hexEncode t.hash == "cafe") = [txP] ∧
    minerBlockPending stPending ∧
    get_transactions stPending "cafe" =
      .ok { tx := txP, block := hexEncode stPending.miner_block.hash, confirmations := 0 } :=
  ⟨by decide, by decide, by decide, by decide,
    pending_tx_zero_confirmations stPending "cafe" [202, 254] txP []
      (by decide) (by decide) (by decide) (by decide)⟩

/-- C10: the pool lookup compares `tx.hex_hash()` with the raw token by
string equality, so an uppercase-bearing token that decodes to the right
bytes misses the pool (404), while the same token finds the transaction
once it is in the committed index, which is queried with the decoded
bytes. -/
theorem pending_lookup_case_sensitive (st stI : ChainState) (arg : String)
    (tx : Tx) (blk : Block) (c : Char)
    (hc : c ∈ arg.data) (hup : c.isUpper = true)
    (hdec : hexDecode arg = some tx.hash)
    (hmiss : st.get_transaction tx.hash = none)
    (_hmem : tx ∈ st.miner_transactions)
    (hidx : stI.get_transaction tx.hash = some (tx, blk)) :
    get_transactions st arg = .abort 404 ("No Transaction  " ++ arg) ∧
    get_transactions stI arg = .ok (respond stI tx blk) := by
  constructor
  · unfold get_transactions
    rw [hdec]; dsimp only; rw [hmiss]
    dsimp only
    have hfil : st.miner_transactions.filter (fun t => hexEncode t.hash == arg) = [] := by
      rw [List.filter_eq_nil_iff]
      intro t _
      simp only [beq_iff_eq]
      exact upper_ne_hexEncode arg c hc hup t.hash
    rw [hfil]
  · unfold get_transactions
    rw [hdec]; dsimp only; rw [hidx]

/-- C10 witness: `"CAFE"` decodes to the pool transaction's hash yet
misses the pool, while the committed-index variant of the same state
serves it. -/
theorem pending_lookup_case_sensitive_witness :
    'A' ∈ "CAFE".data ∧ ('A').isUpper = true ∧
    hexDecode "CAFE" = some txP.hash ∧
    stPending.get_transaction txP.hash = none ∧
    txP ∈ stPending.miner_transactions ∧
    stPendingIdx.get_transaction txP.hash = some (txP, blkA) ∧
    get_transactions stPending "CAFE" = .abort 404 ("No Transaction  " ++ "CAFE") ∧
    get_transactions stPendingIdx "CAFE" = .ok (respond stPendingIdx txP blkA) := by
  refine ⟨by decide, by decide, by decide, by decide, by decide, by decide, ?_, ?_⟩
  · exact (pending_lookup_case_sensitive stPending stPendingIdx "CAFE" txP blkA 'A'
      (by decide) (by decide) (by decide) (by decide) (by decide) (by decide)).1
  · exact (pending_lookup_case_sensitive stPending stPendingIdx "CAFE" txP blkA 'A'
      (by decide) (by decide) (by decide) (by decide) (by decide) (by decide)).2

/-! ## Claim theorems: block resolver -/

/-- C4: a token that is not empty, not `"head"`, not all digits and not
decodable as hex draws a 404 abort naming the token — never a 400, a 500
or a propagated exception. -/
theorem malformed_block_token_notfound (st : ChainState) (arg : String)
    (_hne : arg ≠ "") (hh : arg ≠ "head") (hd : pyIsDigit arg = false)
    (hx : hexDecode arg = none) :
    resolveBlock st arg = .abort 404 ("No block  " ++ arg) := by
  have h1 : (arg == "head") = false := beq_eq_false_iff_ne.mpr hh
  simp only [resolveBlock, h1, hd, Bool.false_eq_true, if_false]
  rw [hx]

/-- C4 witness: the non-hex token `"zz"` draws the 404 abort. -/
theorem malformed_block_token_notfound_witness :
    ("zz" : String) ≠ "" ∧ ("zz" : String) ≠ "head" ∧ pyIsDigit "zz" = false ∧
    hexDecode "zz" = none ∧
    resolveBlock stEmpty "zz" = .abort 404 ("No block  " ++ "zz") :=
  ⟨by decide, by decide, by decide, by decide,
    malformed_block_token_notfound stEmpty "zz" (by decide) (by decide) (by decide) (by decide)⟩

/-- A 32-byte all-zero hash, whose hex form `"000…0"` is all decimal digits. -/
def zeroHash : List Nat := List.replicate 32 0

/-- The canonical block at height 1 in the degenerate fixture. -/
def blk0 : Block := { hash := zeroHash, number := 1 }

/-- A chain whose height-1 canonical block carries the all-zero hash. -/
def stDigitHash : ChainState :=
  { head := blk0
    get_block_by_number := fun n => if n = 1 then some zeroHash else none
    get := fun h => if h = zeroHash then some blk0 else none
    get_transaction := fun _ => none
    miner_transactions := []
    miner_block := blk0
    in_main_branch := fun _ => true }

/-- C9 counterexample: the canonical block at height 1 has an all-zero
hash, so its hex hash token is routed as a height and misses, while the
decimal token `"1"` finds the block — the two resolutions differ. -/
theorem height_vs_hash_counterexample :
    stDigitHash.get_block_by_number (parseNatDigits "1") = some blk0.hash ∧
    stDigitHash.get blk0.hash = some blk0 ∧
    resolveBlock stDigitHash "1" = .ok [blk0] ∧
    resolveBlock stDigitHash (hexEncode blk0.hash) =
      .abort 404 ("No block  " ++ hexEncode blk0.hash) ∧
    resolveBlock stDigitHash (hexEncode blk0.hash) ≠ resolveBlock stDigitHash "1" := by
  decide

/-- C9 amended: an all-digit token `s` within the chain height resolves by
looking up the canonical hash at that height and fetching by hash, and
agrees with resolving by the block's own hex hash — provided that hex hash
is not itself all decimal digits (else it is routed as a height). -/
theorem height_resolution_agrees_with_hash (st : ChainState) (s : String) (b : Block)
    (hdig : pyIsDigit s = true)
    (hidx : st.get_block_by_number (parseNatDigits s) = some b.hash)
    (hget : st.get b.hash = some b)
    (hbytes : ∀ x ∈ b.hash, x < 256)
    (hnotdig : pyIsDigit (hexEncode b.hash) = false) :
    resolveBlock st s = .ok [b] ∧ resolveBlock st (hexEncode b.hash) = .ok [b] := by
  have hs : (s == "head") = false := by
    apply beq_eq_false_iff_ne.mpr
    intro e
    rw [e] at hdig
    exact absurd hdig (by decide)
  have ht : (hexEncode b.hash == "head") = false :=
    beq_eq_false_iff_ne.mpr (hexEncode_ne_head _)
  constructor
  · simp only [resolveBlock, hs, hdig, Bool.false_eq_true, if_false, if_true]
    rw [hidx]
    dsimp only
    rw [hget]
  · simp only [resolveBlock, ht, hnotdig, Bool.false_eq_true, if_false]
    rw [hexDecode_hexEncode b.hash hbytes]
    dsimp only
    rw [hget]

/-- The block fixture for the C9 witness; its hex hash is `"ab01"`. -/
def blkH : Block := { hash := [171, 1], number := 5 }

/-- A chain holding `blkH` at height 5 on the canonical branch. -/
def stHeight : ChainState :=
  { head := blkH
    get_block_by_number := fun n => if n = 5 then some [171, 1] else none
    get := fun h => if h = [171, 1] then some blkH else none
    get_transaction := fun _ => none
    miner_transactions := []
    miner_block := blkH
    in_main_branch := fun _ => true }

/-- C9 witness: the decimal token `"5"` and the hash token `"ab01"`
resolve to the same fixture block. -/
theorem height_resolution_agrees_with_hash_witness :
    pyIsDigit "5" = true ∧
    stHeight.get_block_by_number (parseNatDigits "5") = some blkH.hash ∧
    stHeight.get blkH.hash = some blkH ∧
    (∀ x ∈ blkH.hash, x < 256) ∧
    pyIsDigit (hexEncode blkH.hash) = false ∧
    resolveBlock stHeight "5" = .ok [blkH] ∧
    resolveBlock stHeight (hexEncode blkH.hash) = .ok [blkH] := by
  refine ⟨by decide, by decide, by decide, by decide, by decide, ?_, ?_⟩
  · exact (height_resolution_agrees_with_hash stHeight "5" blkH
      (by decide) (by decide) (by decide) (by decide) (by decide)).1
  · exact (height_resolution_agrees_with_hash stHeight "5" blkH
      (by decide) (by decide) (by decide) (by decide) (by decide)).2

/-! ## Claim theorems: CORS middleware -/

/-- A concrete inner WSGI app used in CORS witnesses. -/
def innerApp : Environ → WsgiResponse :=
  fun _ => { status := "204 No Content", headers := [("X-Inner", "1")], body := "inner" }

/-- A second, different inner WSGI app used to exhibit short-circuiting. -/
def innerApp2 : Environ → WsgiResponse :=
  fun _ => { status := "500 Error", headers := [], body := "other" }

/-- C5 counterexample: the OPTIONS short-circuit response does not carry
exactly the three CORS headers — a `Content-Length: 0` header is also
present. -/
theorem options_headers_not_exactly_cors :
    (cors_call innerApp { request_method := "OPTIONS", path := "/api/v0alpha/blocks/" }).headers
      ≠ corsHeaders := by
  decide

/-- C5 amended: an OPTIONS request short-circuits with status `200 OK`,
empty body and the three CORS headers followed by `Content-Length: 0`,
without invoking downstream routing (the result is the same for every
inner app). -/
theorem options_shortcircuit (inner inner2 : Environ → WsgiResponse) (env : Environ)
    (h : env.request_method = "OPTIONS") :
    cors_call inner env =
      { status := "200 OK"
        headers := corsHeaders ++ [("Content-Length", "0")]
        body := "" } ∧
    cors_call inner env = cors_call inner2 env := by
  constructor <;> simp [cors_call, h]

/-- C5 witness: a concrete OPTIONS request on the blocks route
short-circuits identically under two different inner apps. -/
theorem options_shortcircuit_witness :
    cors_call innerApp { request_method := "OPTIONS", path := "/api/v0alpha/blocks/" } =
      { status := "200 OK"
        headers := corsHeaders ++ [("Content-Length", "0")]
        body := "" } ∧
    cors_call innerApp { request_method := "OPTIONS", path := "/api/v0alpha/blocks/" } =
      cors_call innerApp2 { request_method := "OPTIONS", path := "/api/v0alpha/blocks/" } :=
  options_shortcircuit innerApp innerApp2
    { request_method := "OPTIONS", path := "/api/v0alpha/blocks/" } rfl

/-- C6: a non-OPTIONS request is answered by the inner app with its status
and body unchanged and its header list preserved with the three CORS
headers appended. -/
theorem cors_appends_headers (inner : Environ → WsgiResponse) (env : Environ)
    (h : env.request_method ≠ "OPTIONS") :
    cors_call inner env =
      { status := (inner env).status
        headers := (inner env).headers ++ corsHeaders
        body := (inner env).body } := by
  have h1 : (env.request_method == "OPTIONS") = false := beq_eq_false_iff_ne.mpr h
  simp [cors_call, h1]

/-- C6 witness: a GET request keeps the inner app's status, body and
headers, with the CORS headers appended. -/
theorem cors_appends_headers_witness :
    ("GET" : String) ≠ "OPTIONS" ∧
    cors_call innerApp { request_method := "GET", path := "/api/v0alpha/blocks/head" } =
      { status := (innerApp { request_method := "GET", path := "/api/v0alpha/blocks/head" }).status
        headers :=
          (innerApp { request_method := "GET", path := "/api/v0alpha/blocks/head" }).headers
            ++ corsHeaders
        body := (innerApp { request_method := "GET", path := "/api/v0alpha/blocks/head" }).body } :=
  ⟨by decide,
    cors_appends_headers innerApp { request_method := "GET", path := "/api/v0alpha/blocks/head" }
      (by decide)⟩

/-! ## Claim theorems: serialization determinism -/

/-- Strict key order on serialized object entries. -/
def entryLt (a b : String × String) : Prop := a.1 < b.1

instance : IsAntisymm (String × String) entryLt :=
  ⟨fun _ _ h1 h2 => absurd h2 (lt_asymm h1)⟩

theorem dumpsEntries_eq_map (kvs : List (String × JVal)) :
    dumpsEntries kvs = kvs.map (fun kv => (kv.1, dumps kv.2)) := by
  induction kvs with
  | nil => rfl
  | cons kv kvs ih =>
    obtain ⟨k, v⟩ := kv
    rw [dumpsEntries, ih, List.map_cons]

theorem sorted_le_nodup_strict (l : List (String × String))
    (hs : List.Sorted entryLe l) (hn : (l.map Prod.fst).Nodup) :
    List.Sorted entryLt l := by
  have hn' : l.Pairwise (fun a b : String × String => a.1 ≠ b.1) := List.pairwise_map.mp hn
  exact (hs.and hn').imp (fun h => lt_of_le_of_ne h.1 h.2)

theorem insertionSort_perm_nodup_eq (l1 l2 : List (String × String))
    (hp : l1.Perm l2) (hnd : (l1.map Prod.fst).Nodup) :
    List.insertionSort entryLe l1 = List.insertionSort entryLe l2 := by
  have h1 : (List.insertionSort entryLe l1).Perm l1 := List.perm_insertionSort _ _
  have h2 : (List.insertionSort entryLe l2).Perm l2 := List.perm_insertionSort _ _
  have hp' : (List.insertionSort entryLe l1).Perm (List.insertionSort entryLe l2) :=
    (h1.trans hp).trans h2.symm
  have hnd2 : (l2.map Prod.fst).Nodup := ((hp.map Prod.fst).nodup_iff).mp hnd
  have hnd1' : ((List.insertionSort entryLe l1).map Prod.fst).Nodup :=
    ((h1.map Prod.fst).nodup_iff).mpr hnd
  have hnd2' : ((List.insertionSort entryLe l2).map Prod.fst).Nodup :=
    ((h2.map Prod.fst).nodup_iff).mpr hnd2
  exact List.eq_of_perm_of_sorted hp'
    (sorted_le_nodup_strict _ (List.sorted_insertionSort _ _) hnd1')
    (sorted_le_nodup_strict _ (List.sorted_insertionSort _ _) hnd2')

theorem dumps_jobj (kvs : List (String × JVal)) :
    dumps (.jobj kvs) =
      "\x7b" ++
        commaJoin ((List.insertionSort entryLe (dumpsEntries kvs)).map
          (fun e => "\"" ++ e.1 ++ "\": " ++ e.2)) ++ "\x7d" := by
  rw [dumps]

/-- C8: serialization is a pure function of the object's entry set — two
objects holding the same key/value pairs in any insertion order produce
byte-identical output, and the entries are emitted in sorted key order. -/
theorem serialization_key_order_stable (kvs1 kvs2 : List (String × JVal))
    (hp : kvs1.Perm kvs2) (hnd : (kvs1.map Prod.fst).Nodup) :
    dumps (.jobj kvs1) = dumps (.jobj kvs2) ∧
    List.Sorted entryLe (List.insertionSort entryLe (dumpsEntries kvs1)) := by
  constructor
  · rw [dumps_jobj, dumps_jobj]
    have hperm : (dumpsEntries kvs1).Perm (dumpsEntries kvs2) := by
      rw [dumpsEntries_eq_map, dumpsEntries_eq_map]
      exact hp.map _
    have hkeys : ((dumpsEntries kvs1).map Prod.fst).Nodup := by
      rw [dumpsEntries_eq_map, List.map_map]
      exact hnd
    rw [insertionSort_perm_nodup_eq _ _ hperm hkeys]
  · exact List.sorted_insertionSort _ _

/-- The spec's example object in one insertion order. -/
def sampleObj1 : List (String × JVal) := [("height", .jnum 5), ("hash", .jstr "ab12")]

/-- The spec's example object in the other insertion order. -/
def sampleObj2 : List (String × JVal) := [("hash", .jstr "ab12"), ("height", .jnum 5)]

/-- C8 witness: the spec's `height`/`hash` example serializes identically
from either insertion order, sorted by key. -/
theorem serialization_key_order_stable_witness :
    sampleObj1.Perm sampleObj2 ∧
    dumps (.jobj sampleObj1) = dumps (.jobj sampleObj2) ∧
    List.Sorted entryLe (List.insertionSort entryLe (dumpsEntries sampleObj1)) := by
  have hp : sampleObj1.Perm sampleObj2 := List.Perm.swap _ _ _
  have h := serialization_key_order_stable sampleObj1 sampleObj2 hp (by
    show (List.map Prod.fst sampleObj1).Nodup
    decide)
  exact ⟨hp, h.1, h.2⟩
